import Mathlib

/-!
Verification of the Simple Notes App persistence core (src/app/db.py,
src/app/date_utils.py, src/app/entity/note.py) and of the sign_in route of
the HTTP adapter (src/app/api.py).

The SQLite-backed `DatabaseManager` is embedded as pure functions over an
explicit `DB` state.  Ambient effects of the Python code are made explicit
parameters:

* the clock: every operation that reads the current time takes `now : Nat`
  (epoch milliseconds, as produced by `date_utils.current_timestamp_millis`);
* token minting: `uuid.uuid4()` becomes an explicit `tokenValue : String`
  argument;
* bcrypt: `bcrypt.hashpw` with a fresh salt is modelled by the `BcryptHash`
  pair, whose `checkpw` succeeds exactly on the hashed password (the
  collision-freeness of the real primitive).

SQL statements are translated row-by-row: `INSERT OR REPLACE` on `Tokens`
deletes the rows violating the PRIMARY KEY (`user_id`) or UNIQUE (`value`)
constraints and appends the new row; a plain `INSERT` that would violate a
UNIQUE constraint raises `IntegrityError`, which `create_user` turns into a
rollback; `UPDATE`/`DELETE ... WHERE note_id = ? AND user_id = ?` act on all
rows matching both columns; `LIKE` patterns are given their SQLite meaning
(ASCII-case-insensitive, with `%` and `_` wildcards); `ORDER BY updated_at
DESC` is a stable sort by the `updGE` relation.  The note timestamps
(`CURRENT_TIMESTAMP` defaults and the `update_notes_updated_at` trigger) are
drawn from the same explicit clock.
-/

abbrev UserId := Nat
abbrev NoteId := Nat

/-- Result of `bcrypt.hashpw(password, gensalt())`: an opaque value from which
the password cannot be read back but against which `checkpw` can verify.  The
model keeps the hashed password and the salt as data; `checkpw` succeeds
exactly on the original password, which is the idealised behaviour of the
primitive assumed by the code. -/
structure BcryptHash where
  password : String
  salt : Nat
deriving DecidableEq

/-- Model of `bcrypt.hashpw` (db.py line 126). -/
def hashpw (password : String) (salt : Nat) : BcryptHash := ⟨password, salt⟩

/-- Model of `bcrypt.checkpw` (db.py line 181). -/
def checkpw (password : String) (stored : BcryptHash) : Bool :=
  password == stored.password

/-- One day in milliseconds. -/
def dayMillis : Nat := 86400000

/-- date_utils.next_day_timestamp_millis: the timestamp of the next day at the
same time, i.e. the current clock reading plus 24 hours, in epoch
milliseconds.  The ambient `datetime.now()` is the explicit `now` argument. -/
def next_day_timestamp_millis (now : Nat) : Nat := now + dayMillis

/-- A row of the `Users` table (db.py lines 67-74): user_id INTEGER PRIMARY
KEY AUTOINCREMENT, username UNIQUE NOT NULL, password_hash NOT NULL, email
UNIQUE NOT NULL. -/
structure UserRow where
  user_id : UserId
  username : String
  password_hash : BcryptHash
  email : String
deriving DecidableEq

/-- A row of the `Tokens` table (db.py lines 76-83): user_id INTEGER PRIMARY
KEY (foreign key to Users), value VARCHAR(36) UNIQUE NOT NULL, expiration
INTEGER NOT NULL (epoch milliseconds). -/
structure TokenRow where
  user_id : UserId
  value : String
  expiration : Nat
deriving DecidableEq

/-- A row of the `Notes` table (db.py lines 85-95), i.e. the fields of the
`Note` entity (entity/note.py): note_id INTEGER PRIMARY KEY AUTOINCREMENT,
user_id (foreign key to Users), title, content, created_at and updated_at
TIMESTAMP DEFAULT CURRENT_TIMESTAMP.  Timestamps are clock readings. -/
structure NoteRow where
  note_id : NoteId
  user_id : UserId
  title : String
  content : String
  created_at : Nat
  updated_at : Nat
deriving DecidableEq

/-- The state owned by `DatabaseManager`: the three tables plus the next
AUTOINCREMENT value of each INTEGER PRIMARY KEY AUTOINCREMENT column
(`lastrowid` of a successful insert is the value just consumed). -/
structure DB where
  users : List UserRow
  tokens : List TokenRow
  notes : List NoteRow
  nextUserId : Nat
  nextNoteId : Nat
deriving DecidableEq

/-- The freshly created database: `_create_tables` on a new file leaves every
table empty and both AUTOINCREMENT sequences at 1. -/
def initialDB : DB := ⟨[], [], [], 1, 1⟩

/-- Result of `DatabaseManager.create_user`: `(user_id, token_value)` on
success, `USER_ALREADY_EXISTS` on an IntegrityError from either UNIQUE
constraint, `UNKNOWN_ERROR` on any other sqlite3.Error (never produced by the
pure model, kept to reflect the result space of the method). -/
inductive CreateUserResult
  | ok (user_id : UserId) (token : String)
  | userAlreadyExists
  | unknownError
deriving DecidableEq

/-- Result of `DatabaseManager.verify_user`. -/
inductive VerifyUserResult
  | ok (user_id : UserId) (token : String)
  | invalidPassword
  | userNotFound
  | unknownError
deriving DecidableEq

/-- Result of `DatabaseManager.get_user_id_from_token`: the owning user_id,
or one of the sentinels TOKEN_EXPIRED / INVALID_TOKEN. -/
inductive Resolution
  | user (user_id : UserId)
  | tokenExpired
  | invalidToken
deriving DecidableEq

/-- Result of `DatabaseManager.create_note`: the new note_id or a sentinel. -/
inductive CreateNoteResult
  | ok (note_id : NoteId)
  | tokenExpired
  | invalidToken
  | unknownError
deriving DecidableEq

/-- Result of `DatabaseManager.get_note`: a `Note` or a sentinel. -/
inductive GetNoteResult
  | note (n : NoteRow)
  | noteNotFound
  | tokenExpired
  | invalidToken
  | unknownError
deriving DecidableEq

/-- Result of `DatabaseManager.get_all_notes`: a list of notes or a sentinel.
The `unknownError` alternative is part of the result space the adapter layer
checks for, but `get_all_notes` itself never produces it (its except branches
return an empty list instead, see db.py lines 381-383 and 404-405). -/
inductive ListNotesResult
  | notes (l : List NoteRow)
  | tokenExpired
  | invalidToken
  | unknownError
deriving DecidableEq

/-- Result of `DatabaseManager.update_note` and `DatabaseManager.delete_note`:
OK or a sentinel. -/
inductive MutResult
  | ok
  | noteNotFound
  | tokenExpired
  | invalidToken
  | unknownError
deriving DecidableEq

/-- DatabaseManager.create_user (db.py lines 113-157).  Hashes the password,
INSERTs the Users row, then INSERTs a fresh Tokens row with expiration one
day ahead, committing both.  Either INSERT hitting a UNIQUE constraint raises
IntegrityError, which rolls back the whole transaction and returns
USER_ALREADY_EXISTS.  The fresh uuid4 token value and the bcrypt salt are the
explicit `tokenValue` and `salt` arguments. -/
def create_user (db : DB) (now salt : Nat) (tokenValue username password email : String) :
    CreateUserResult × DB :=
  if db.users.any (fun u => u.username == username || u.email == email) then
    (.userAlreadyExists, db)
  else
    let user_id := db.nextUserId
    if db.tokens.any (fun t => t.user_id == user_id || t.value == tokenValue) then
      (.userAlreadyExists, db)
    else
      (.ok user_id tokenValue,
        { db with
          users := db.users ++ [⟨user_id, username, hashpw password salt, email⟩],
          tokens := db.tokens ++ [⟨user_id, tokenValue, next_day_timestamp_millis now⟩],
          nextUserId := db.nextUserId + 1 })

/-- DatabaseManager.verify_user (db.py lines 159-205).  Looks the user up by
username; absent gives USER_NOT_FOUND, a bcrypt mismatch gives
INVALID_PASSWORD (both roll the read-only transaction back, leaving the state
unchanged).  On a match it INSERT OR REPLACEs a fresh token row for that
user_id: the rows violating the PRIMARY KEY (user_id) or the UNIQUE (value)
constraint are deleted and the new row inserted, then committed. -/
def verify_user (db : DB) (now : Nat) (tokenValue username password : String) :
    VerifyUserResult × DB :=
  match db.users.find? (fun u => u.username == username) with
  | none => (.userNotFound, db)
  | some user =>
    if checkpw password user.password_hash then
      (.ok user.user_id tokenValue,
        { db with
          tokens :=
            (db.tokens.filter
              (fun t => !(t.user_id == user.user_id || t.value == tokenValue))) ++
            [⟨user.user_id, tokenValue, next_day_timestamp_millis now⟩] })
    else
      (.invalidPassword, db)

/-- DatabaseManager.get_user_id_from_token (db.py lines 227-250).  The SELECT
joins Users and Tokens on user_id and filters on Tokens.value; no row gives
INVALID_TOKEN, a row whose expiration is not strictly in the future gives
TOKEN_EXPIRED (the stale row is not deleted), otherwise the user_id is
returned. -/
def get_user_id_from_token (db : DB) (now : Nat) (user_token : String) : Resolution :=
  match db.tokens.find? (fun t => t.value == user_token) with
  | none => .invalidToken
  | some t =>
    if db.users.any (fun u => u.user_id == t.user_id) then
      if now < t.expiration then .user t.user_id else .tokenExpired
    else
      .invalidToken

/-- DatabaseManager._create_note (db.py lines 252-274).  INSERTs a Notes row
for the user; created_at and updated_at take the DEFAULT CURRENT_TIMESTAMP of
the insert, i.e. the same clock reading, and lastrowid is returned. -/
def _create_note (db : DB) (now : Nat) (user_id : UserId) (title content : String) :
    NoteId × DB :=
  (db.nextNoteId,
    { db with
      notes := db.notes ++ [⟨db.nextNoteId, user_id, title, content, now, now⟩],
      nextNoteId := db.nextNoteId + 1 })

/-- DatabaseManager.create_note (db.py lines 276-298): resolves the token,
passes TOKEN_EXPIRED / INVALID_TOKEN through unchanged, otherwise delegates
to `_create_note`. -/
def create_note (db : DB) (now : Nat) (user_token title content : String) :
    CreateNoteResult × DB :=
  match get_user_id_from_token db now user_token with
  | .tokenExpired => (.tokenExpired, db)
  | .invalidToken => (.invalidToken, db)
  | .user uid =>
    let r := _create_note db now uid title content
    (.ok r.1, r.2)

/-- DatabaseManager._get_note (db.py lines 300-325): SELECT scoped by both
note_id and user_id; no row gives NOTE_NOT_FOUND. -/
def _get_note (db : DB) (note_id : NoteId) (user_id : UserId) : GetNoteResult :=
  match db.notes.find? (fun n => n.note_id == note_id && n.user_id == user_id) with
  | none => .noteNotFound
  | some n => .note n

/-- DatabaseManager.get_note (db.py lines 327-348): resolves the token,
passes the sentinels through (the dead comparison of the resolved id against
NOTE_NOT_FOUND at line 343 can never fire), otherwise delegates to
`_get_note`. -/
def get_note (db : DB) (now : Nat) (note_id : NoteId) (user_token : String) : GetNoteResult :=
  match get_user_id_from_token db now user_token with
  | .tokenExpired => .tokenExpired
  | .invalidToken => .invalidToken
  | .user uid => _get_note db note_id uid

/-- Python str.strip on the ASCII whitespace the model supports: drops
whitespace characters from both ends (db.py line 363, `search_query.strip()`).
-/
def pyStrip (s : String) : String :=
  String.mk (((s.toList.dropWhile Char.isWhitespace).reverse.dropWhile
    Char.isWhitespace).reverse)

/-- Helper for the `%` wildcard of SQLite LIKE: tries the continuation
matcher on every suffix of the text. -/
def anySuffix (f : List Char → Bool) : List Char → Bool
  | [] => f []
  | h :: hs => f (h :: hs) || anySuffix f hs

/-- SQLite LIKE pattern matching, as applied by the f-string pattern in db.py
line 371: `%` matches any stretch of characters, `_` any single character,
and plain characters match ASCII-case-insensitively (SQLite default). -/
def likeMatch : List Char → List Char → Bool
  | [], hay => hay.isEmpty
  | p :: ps, hay =>
    if p == '%' then
      anySuffix (likeMatch ps) hay
    else
      match hay with
      | [] => false
      | h :: hs => (p == '_' || h.toLower == p.toLower) && likeMatch ps hs

/-- The WHERE clause `title LIKE ?` with parameter `'%' + query + '%'`
(db.py lines 367-371). -/
def titleLike (title query : String) : Bool :=
  likeMatch ('%' :: (query.toList ++ ['%'])) title.toList

/-- Case-sensitive prefix test on character lists (specification-side notion
used to characterise wildcard-free LIKE patterns). -/
def matchFront : List Char → List Char → Bool
  | [], _ => true
  | _ :: _, [] => false
  | a :: as, b :: bs => a == b && matchFront as bs

/-- Case-sensitive contiguous-substring test on character lists: the needle
occurs at the front of some suffix of the haystack. -/
def containsSeq (needle : List Char) : List Char → Bool
  | [] => matchFront needle []
  | h :: hs => matchFront needle (h :: hs) || containsSeq needle hs

/-- The ORDER BY updated_at DESC comparison (db.py lines 370 and 376). -/
def updGE (a b : NoteRow) : Prop := b.updated_at ≤ a.updated_at

instance : DecidableRel updGE := fun a b => Nat.decLe b.updated_at a.updated_at

instance : IsTotal NoteRow updGE := ⟨fun a b => Nat.le_total b.updated_at a.updated_at⟩

instance : IsTrans NoteRow updGE := ⟨fun _ _ _ h1 h2 => Nat.le_trans h2 h1⟩

/-- DatabaseManager._get_all_notes (db.py lines 350-383): strips the search
query; a blank result selects all the notes of the user, a non-blank one adds
`title LIKE '%query%'`; either way rows come back ORDER BY updated_at DESC. -/
def _get_all_notes (db : DB) (user_id : UserId) (search_query : String) : List NoteRow :=
  let query := pyStrip search_query
  let rows :=
    if query.isEmpty then
      db.notes.filter (fun n => n.user_id == user_id)
    else
      db.notes.filter (fun n => n.user_id == user_id && titleLike n.title query)
  List.insertionSort updGE rows

/-- DatabaseManager.get_all_notes (db.py lines 385-405): resolves the token,
passes the sentinels through, otherwise delegates to `_get_all_notes`. -/
def get_all_notes (db : DB) (now : Nat) (user_token search_query : String) : ListNotesResult :=
  match get_user_id_from_token db now user_token with
  | .tokenExpired => .tokenExpired
  | .invalidToken => .invalidToken
  | .user uid => .notes (_get_all_notes db uid search_query)

/-- DatabaseManager._update_note (db.py lines 407-434) together with the
update_notes_updated_at trigger (db.py lines 97-104): the UPDATE sets title
and content on every row matching both note_id and user_id, the AFTER UPDATE
trigger then refreshes updated_at of the touched note_id to
CURRENT_TIMESTAMP (note_id is the PRIMARY KEY, so the rows the trigger
touches are the rows the UPDATE matched); rowcount 0 returns NOTE_NOT_FOUND
with nothing changed. -/
def _update_note (db : DB) (now : Nat) (note_id : NoteId) (user_id : UserId)
    (title content : String) : MutResult × DB :=
  if db.notes.any (fun n => n.note_id == note_id && n.user_id == user_id) then
    (.ok,
      { db with
        notes := db.notes.map (fun n =>
          if n.note_id == note_id && n.user_id == user_id then
            { n with title := title, content := content, updated_at := now }
          else n) })
  else
    (.noteNotFound, db)

/-- DatabaseManager.update_note (db.py lines 436-459): resolves the token,
passes the sentinels through, otherwise delegates to `_update_note`. -/
def update_note (db : DB) (now : Nat) (note_id : NoteId) (user_token title content : String) :
    MutResult × DB :=
  match get_user_id_from_token db now user_token with
  | .tokenExpired => (.tokenExpired, db)
  | .invalidToken => (.invalidToken, db)
  | .user uid => _update_note db now note_id uid title content

/-- DatabaseManager._delete_note (db.py lines 461-484): DELETE of every row
matching both note_id and user_id; rowcount 0 returns NOTE_NOT_FOUND. -/
def _delete_note (db : DB) (note_id : NoteId) (user_id : UserId) : MutResult × DB :=
  if db.notes.any (fun n => n.note_id == note_id && n.user_id == user_id) then
    (.ok,
      { db with
        notes := db.notes.filter (fun n => !(n.note_id == note_id && n.user_id == user_id)) })
  else
    (.noteNotFound, db)

/-- DatabaseManager.delete_note (db.py lines 486-506): resolves the token,
passes the sentinels through, otherwise delegates to `_delete_note`. -/
def delete_note (db : DB) (now : Nat) (note_id : NoteId) (user_token : String) :
    MutResult × DB :=
  match get_user_id_from_token db now user_token with
  | .tokenExpired => (.tokenExpired, db)
  | .invalidToken => (.invalidToken, db)
  | .user uid => _delete_note db note_id uid


/-- Response of a Flask route handler: the HTTP status plus either a token
payload or an error payload (only the fields the sign_in route can produce
are modelled). -/
inductive SignInResponse
  | token (status : Nat) (tok : String)
  | error (status : Nat) (msg : String)
deriving DecidableEq

/-- The message of the AttributeError Python raises when api.py line 47
evaluates `DatabaseManager.INVALID_PASSWORD`: db.py line 17 defines
STATUS_INVALID_PASSWORD, not INVALID_PASSWORD. -/
def attributeErrorMsg : String :=
  "type object DatabaseManager has no attribute INVALID_PASSWORD"

/-- The sign_in route as written (api.py lines 21-56).  It calls verify_user;
the result is first checked against None / UNKNOWN_ERROR (a branch the pure
model never takes); every surviving path then evaluates
`DatabaseManager.INVALID_PASSWORD`, an attribute the class does not define,
so Python raises AttributeError before any comparison or the success return
is reached, and the blanket `except Exception` handler at api.py line 55
turns it into a 500 response carrying the message — on the bad-password and
user-not-found paths as well as on the correct-credentials path. -/
def sign_in_route (db : DB) (now : Nat) (tokenValue username password : String) :
    SignInResponse × DB :=
  let r := verify_user db now tokenValue username password
  (.error 500 attributeErrorMsg, r.2)

/-- Modelled from the spec: the sign_in adapter behaviour that the spec table
(bad credentials / not found to 404, unknown to 500) and the docstring of the
route describe; the comparison target it needs, an INVALID_PASSWORD
attribute, is exactly what is missing from the code. -/
def sign_in_route_documented (db : DB) (now : Nat) (tokenValue username password : String) :
    SignInResponse × DB :=
  let r := verify_user db now tokenValue username password
  match r.1 with
  | .ok _ tok => (.token 200 tok, r.2)
  | .invalidPassword => (.error 404 "invalid_password", r.2)
  | .userNotFound => (.error 404 "user_not_found", r.2)
  | .unknownError => (.error 500 "unknown_error", r.2)

/-- Execution of get_all_notes in which the notes SELECT raises
sqlite3.Error: the except branch of _get_all_notes (db.py lines 381-383)
returns the empty list, which get_all_notes then passes through as an
ordinary result (db.py lines 385-405). -/
def get_all_notes_onStoreFault (db : DB) (now : Nat)
    (user_token _search_query : String) : ListNotesResult :=
  match get_user_id_from_token db now user_token with
  | .tokenExpired => .tokenExpired
  | .invalidToken => .invalidToken
  | .user _ => .notes []

/-- Concrete state: the account alice created on the fresh database at time
1000, with token tokA. -/
def dbA : DB := (create_user initialDB 1000 0 "tokA" "alice" "pw" "a@a").2

/-- dbA after alice signs in again at time 2000, minting tokB. -/
def dbB : DB := (verify_user dbA 2000 "tokB" "alice" "pw").2

/-- Concrete state with two accounts, a live token each, and one note owned
by user 1. -/
def dbTwo : DB :=
  ⟨[⟨1, "alice", hashpw "pa" 0, "a@a"⟩, ⟨2, "bob", hashpw "pb" 1, "b@b"⟩],
   [⟨1, "ta", 1000000⟩, ⟨2, "tb", 1000000⟩],
   [⟨1, 1, "N", "c", 5, 5⟩], 3, 2⟩

/-- Concrete state with one account, a live token and one note titled ABC. -/
def dbCase : DB :=
  ⟨[⟨1, "ann", hashpw "p" 0, "e@e"⟩], [⟨1, "t6", 1000000⟩],
   [⟨1, 1, "ABC", "c", 5, 5⟩], 2, 2⟩

/-- Concrete state with one account, a live token and the three notes of the
search example of the spec. -/
def dbSearch : DB :=
  ⟨[⟨1, "ann", hashpw "p" 0, "e@e"⟩], [⟨1, "t6", 1000000⟩],
   [⟨1, 1, "Qwerty 1", "c", 5, 7⟩, ⟨1, 1, "Qwerty 2", "c", 5, 9⟩,
    ⟨1, 1, "Zxcvb 1", "c", 5, 8⟩], 2, 4⟩

/-- Concrete state with one account, a live token and one note. -/
def dbNote : DB :=
  ⟨[⟨1, "u", hashpw "p" 0, "u@u"⟩], [⟨1, "t9", 1000000⟩],
   [⟨1, 1, "N", "c", 5, 5⟩], 2, 2⟩

/-- dbNote after its only note is deleted at time 10. -/
def dbNoteDel : DB := (delete_note dbNote 10 1 "t9").2

/-- Concrete state with one account and a live token, before any note. -/
def dbFresh : DB :=
  ⟨[⟨1, "u4", hashpw "p" 0, "u4@u"⟩], [⟨1, "t4", 1000000⟩], [], 2, 1⟩

/-- dbFresh after a note is created at time 5000. -/
def dbFresh1 : DB := (create_note dbFresh 5000 "t4" "T" "C").2

/-- dbFresh1 after that note is updated at the same clock reading 5000. -/
def dbFresh2 : DB := (update_note dbFresh1 5000 1 "t4" "T2" "C2").2

/-- The constraints the `Tokens` schema enforces: user_id is the PRIMARY KEY
(at most one row per user) and value is UNIQUE. -/
def TokensWF (db : DB) : Prop :=
  db.tokens.Pairwise (fun a b => a.user_id ≠ b.user_id) ∧
  db.tokens.Pairwise (fun a b => a.value ≠ b.value)

/-- The states of the store reachable from a fresh database through the
public mutating operations of `DatabaseManager` (get_note and get_all_notes
never change the state, so listing them would add nothing). -/
inductive Reachable : DB → Prop
  | init : Reachable initialDB
  | step_create_user (db : DB) (now salt : Nat) (tv un pw em : String) :
      Reachable db → Reachable (create_user db now salt tv un pw em).2
  | step_verify_user (db : DB) (now : Nat) (tv un pw : String) :
      Reachable db → Reachable (verify_user db now tv un pw).2
  | step_create_note (db : DB) (now : Nat) (tok ti co : String) :
      Reachable db → Reachable (create_note db now tok ti co).2
  | step_update_note (db : DB) (now : Nat) (nid : NoteId) (tok ti co : String) :
      Reachable db → Reachable (update_note db now nid tok ti co).2
  | step_delete_note (db : DB) (now : Nat) (nid : NoteId) (tok : String) :
      Reachable db → Reachable (delete_note db now nid tok).2

/-! ### Helper lemmas -/

theorem charBeq_comm (a b : Char) : (a == b) = (b == a) := by
  by_cases h : a = b
  · subst h; rfl
  · rw [beq_eq_false_iff_ne.mpr h, beq_eq_false_iff_ne.mpr (Ne.symm h)]

theorem length_filter_le_one_of_pairwise {α κ : Type} [DecidableEq κ] (key : α → κ)
    (l : List α) (h : l.Pairwise (fun a b => key a ≠ key b)) (k : κ) :
    (l.filter (fun a => key a == k)).length ≤ 1 := by
  induction l with
  | nil => simp
  | cons a t ih =>
    rcases List.pairwise_cons.mp h with ⟨ha, ht⟩
    by_cases hk : key a = k
    · have hnil : t.filter (fun x => key x == k) = [] := by
        rw [List.filter_eq_nil_iff]
        intro x hx
        simp only [beq_iff_eq]
        intro hxk
        exact ha x hx (by rw [hk, hxk])
      simp [List.filter_cons, hk, hnil]
    · simpa [List.filter_cons, hk] using ih ht

theorem anySuffix_eq_true_of_nil (f : List Char → Bool) (hf : f [] = true) :
    ∀ hay, anySuffix f hay = true
  | [] => by simp [anySuffix, hf]
  | h :: hs => by simp [anySuffix, anySuffix_eq_true_of_nil f hf hs]

theorem likeMatch_pct (hay : List Char) : likeMatch ['%'] hay = true := by
  have h : likeMatch ['%'] hay = anySuffix (likeMatch []) hay := rfl
  rw [h]
  exact anySuffix_eq_true_of_nil _ rfl hay

theorem likeMatch_plain_append_pct (ps : List Char)
    (hp : ∀ c ∈ ps, c ≠ '%' ∧ c ≠ '_') :
    ∀ hay, likeMatch (ps ++ ['%']) hay =
      matchFront (ps.map Char.toLower) (hay.map Char.toLower) := by
  induction ps with
  | nil =>
    intro hay
    simp only [List.nil_append, List.map_nil]
    rw [likeMatch_pct]
    rfl
  | cons p ps ih =>
    intro hay
    have hpct : (p == '%') = false := beq_eq_false_iff_ne.mpr (hp p (by simp)).1
    have hund : (p == '_') = false := beq_eq_false_iff_ne.mpr (hp p (by simp)).2
    have ih2 := ih (fun c hc => hp c (by simp [hc]))
    cases hay with
    | nil =>
      simp [likeMatch, hpct, matchFront]
    | cons h hs =>
      simp only [List.cons_append, likeMatch, hpct, hund, Bool.false_or,
        List.map_cons, matchFront, if_false, Bool.false_eq_true, ite_false,
        List.append_eq]
      rw [ih2 hs, charBeq_comm]

theorem likeMatch_pct_plain_pct (ps : List Char)
    (hp : ∀ c ∈ ps, c ≠ '%' ∧ c ≠ '_') :
    ∀ hay, likeMatch ('%' :: (ps ++ ['%'])) hay =
      containsSeq (ps.map Char.toLower) (hay.map Char.toLower) := by
  intro hay
  induction hay with
  | nil =>
    have h0 : likeMatch ('%' :: (ps ++ ['%'])) [] = likeMatch (ps ++ ['%']) [] := rfl
    rw [h0, likeMatch_plain_append_pct ps hp []]
    rfl
  | cons h hs ih =>
    have h1 : likeMatch ('%' :: (ps ++ ['%'])) (h :: hs) =
        (likeMatch (ps ++ ['%']) (h :: hs) || likeMatch ('%' :: (ps ++ ['%'])) hs) := rfl
    rw [h1, likeMatch_plain_append_pct ps hp (h :: hs), ih]
    rfl

theorem titleLike_eq_containsSeq (title query : String)
    (hp : ∀ c ∈ query.toList, c ≠ '%' ∧ c ≠ '_') :
    titleLike title query =
      containsSeq (query.toList.map Char.toLower) (title.toList.map Char.toLower) := by
  unfold titleLike
  exact likeMatch_pct_plain_pct query.toList hp title.toList

theorem resolve_only_tokens_users (db db' : DB) (now : Nat) (tok : String)
    (ht : db'.tokens = db.tokens) (hu : db'.users = db.users) :
    get_user_id_from_token db' now tok = get_user_id_from_token db now tok := by
  unfold get_user_id_from_token
  rw [ht, hu]

theorem create_note_tokens_users (db : DB) (now : Nat) (tok ti co : String) :
    (create_note db now tok ti co).2.tokens = db.tokens ∧
    (create_note db now tok ti co).2.users = db.users := by
  unfold create_note
  split <;> exact ⟨rfl, rfl⟩

theorem update_note_tokens_users (db : DB) (now : Nat) (nid : NoteId) (tok ti co : String) :
    (update_note db now nid tok ti co).2.tokens = db.tokens ∧
    (update_note db now nid tok ti co).2.users = db.users := by
  unfold update_note _update_note
  split
  · exact ⟨rfl, rfl⟩
  · exact ⟨rfl, rfl⟩
  · split <;> exact ⟨rfl, rfl⟩

theorem delete_note_tokens_users (db : DB) (now : Nat) (nid : NoteId) (tok : String) :
    (delete_note db now nid tok).2.tokens = db.tokens ∧
    (delete_note db now nid tok).2.users = db.users := by
  unfold delete_note _delete_note
  split
  · exact ⟨rfl, rfl⟩
  · exact ⟨rfl, rfl⟩
  · split <;> exact ⟨rfl, rfl⟩

theorem tokensWF_create_user (db : DB) (now salt : Nat) (tv un pw em : String)
    (h : TokensWF db) : TokensWF (create_user db now salt tv un pw em).2 := by
  unfold create_user
  split
  · exact h
  · dsimp only
    split
    · exact h
    · rename_i hdup
      have hfresh : ∀ t ∈ db.tokens, t.user_id ≠ db.nextUserId ∧ t.value ≠ tv := by
        intro t ht
        by_contra hcon
        apply hdup
        rw [List.any_eq_true]
        refine ⟨t, ht, ?_⟩
        rw [not_and_or, not_not, not_not] at hcon
        rcases hcon with h1 | h1 <;> simp [h1]
      constructor
      · show (db.tokens ++ [_]).Pairwise _
        rw [List.pairwise_append]
        refine ⟨h.1, List.pairwise_singleton _ _, ?_⟩
        intro a ha b hb
        rw [List.mem_singleton] at hb
        subst hb
        exact (hfresh a ha).1
      · show (db.tokens ++ [_]).Pairwise _
        rw [List.pairwise_append]
        refine ⟨h.2, List.pairwise_singleton _ _, ?_⟩
        intro a ha b hb
        rw [List.mem_singleton] at hb
        subst hb
        exact (hfresh a ha).2

theorem tokensWF_verify_user (db : DB) (now : Nat) (tv un pw : String)
    (h : TokensWF db) : TokensWF (verify_user db now tv un pw).2 := by
  unfold verify_user
  cases hfind : db.users.find? (fun u => u.username == un) with
  | none => exact h
  | some user =>
    by_cases hc : checkpw pw user.password_hash
    · simp only [hc, if_true]
      have hmem : ∀ t ∈ db.tokens.filter
          (fun t => !(t.user_id == user.user_id || t.value == tv)),
          t.user_id ≠ user.user_id ∧ t.value ≠ tv := by
        intro t ht
        have hp := (List.mem_filter.mp ht).2
        simp only [Bool.not_eq_true', Bool.or_eq_false_iff, beq_eq_false_iff_ne] at hp
        exact hp
      constructor
      · show (_ ++ [_]).Pairwise _
        rw [List.pairwise_append]
        refine ⟨h.1.filter _, List.pairwise_singleton _ _, ?_⟩
        intro a ha b hb
        rw [List.mem_singleton] at hb
        subst hb
        exact (hmem a ha).1
      · show (_ ++ [_]).Pairwise _
        rw [List.pairwise_append]
        refine ⟨h.2.filter _, List.pairwise_singleton _ _, ?_⟩
        intro a ha b hb
        rw [List.mem_singleton] at hb
        subst hb
        exact (hmem a ha).2
    · simp only [hc, if_false]
      exact h

theorem tokensWF_congr (db db' : DB) (ht : db'.tokens = db.tokens)
    (h : TokensWF db) : TokensWF db' := by
  unfold TokensWF
  rw [ht]
  exact h

theorem tokensWF_of_reachable (db : DB) (h : Reachable db) : TokensWF db := by
  induction h with
  | init => exact ⟨List.Pairwise.nil, List.Pairwise.nil⟩
  | step_create_user db now salt tv un pw em _ ih =>
    exact tokensWF_create_user db now salt tv un pw em ih
  | step_verify_user db now tv un pw _ ih =>
    exact tokensWF_verify_user db now tv un pw ih
  | step_create_note db now tok ti co _ ih =>
    exact tokensWF_congr _ _ (create_note_tokens_users db now tok ti co).1 ih
  | step_update_note db now nid tok ti co _ ih =>
    exact tokensWF_congr _ _ (update_note_tokens_users db now nid tok ti co).1 ih
  | step_delete_note db now nid tok _ ih =>
    exact tokensWF_congr _ _ (delete_note_tokens_users db now nid tok).1 ih

/-! ### Claims -/

/-- C5: for every existing account, a second create_user call reusing that
account username or reusing its email returns USER_ALREADY_EXISTS (the same
sentinel in both cases, nothing distinguishes which field collided), and the
call leaves the state - every User row, Token row, and both sequences -
exactly as it was: no row is created and none is changed (full rollback). -/
theorem c5_duplicate_signup_rejected (db : DB) (now salt : Nat)
    (tv un pw em : String)
    (h : ∃ u ∈ db.users, u.username = un ∨ u.email = em) :
    create_user db now salt tv un pw em = (.userAlreadyExists, db) := by
  obtain ⟨u, hu, hcase⟩ := h
  have hany : db.users.any (fun u => u.username == un || u.email == em) = true := by
    rw [List.any_eq_true]
    refine ⟨u, hu, ?_⟩
    rcases hcase with h1 | h1 <;> simp [h1]
  unfold create_user
  rw [if_pos hany]

theorem c5_duplicate_signup_rejected_witness :
    create_user dbA 5000 1 "tokX" "alice" "pw2" "new@x" = (.userAlreadyExists, dbA) ∧
    create_user dbA 5000 1 "tokY" "carol" "pw3" "a@a" = (.userAlreadyExists, dbA) := by
  constructor
  · exact c5_duplicate_signup_rejected dbA 5000 1 "tokX" "alice" "pw2" "new@x"
      ⟨⟨1, "alice", hashpw "pw" 0, "a@a"⟩, by decide, Or.inl rfl⟩
  · exact c5_duplicate_signup_rejected dbA 5000 1 "tokY" "carol" "pw3" "a@a"
      ⟨⟨1, "alice", hashpw "pw" 0, "a@a"⟩, by decide, Or.inr rfl⟩

/-- C7: whenever the token resolves to the TOKEN_EXPIRED or INVALID_TOKEN
sentinel, each of the five note operations returns that same sentinel and
leaves the state - in particular every Note row - exactly as it was. -/
theorem c7_sentinel_short_circuit (db : DB) (now : Nat) (nid : NoteId)
    (tok ti co q : String) :
    (get_user_id_from_token db now tok = .tokenExpired →
      create_note db now tok ti co = (.tokenExpired, db) ∧
      get_note db now nid tok = .tokenExpired ∧
      get_all_notes db now tok q = .tokenExpired ∧
      update_note db now nid tok ti co = (.tokenExpired, db) ∧
      delete_note db now nid tok = (.tokenExpired, db)) ∧
    (get_user_id_from_token db now tok = .invalidToken →
      create_note db now tok ti co = (.invalidToken, db) ∧
      get_note db now nid tok = .invalidToken ∧
      get_all_notes db now tok q = .invalidToken ∧
      update_note db now nid tok ti co = (.invalidToken, db) ∧
      delete_note db now nid tok = (.invalidToken, db)) := by
  constructor <;> intro h <;>
    exact ⟨by simp [create_note, h], by simp [get_note, h],
      by simp [get_all_notes, h], by simp [update_note, h],
      by simp [delete_note, h]⟩

theorem c7_sentinel_short_circuit_witness :
    (create_note dbA 86401000 "tokA" "t" "c" = (.tokenExpired, dbA) ∧
      get_all_notes dbA 86401000 "tokA" "" = .tokenExpired) ∧
    (update_note dbA 500 1 "ghost" "t" "c" = (.invalidToken, dbA) ∧
      get_note dbA 500 1 "ghost" = .invalidToken) := by
  have h1 := (c7_sentinel_short_circuit dbA 86401000 1 "tokA" "t" "c" "").1 (by decide)
  have h2 := (c7_sentinel_short_circuit dbA 500 1 "ghost" "t" "c" "").2 (by decide)
  exact ⟨⟨h1.1, h1.2.2.1⟩, ⟨h2.2.2.2.1, h2.2.1⟩⟩

/-- C3: token resolution is a total three-way case split - no matching row
gives INVALID_TOKEN; a matching row (joined to its user) whose expiration is
at or before the check time gives TOKEN_EXPIRED; a live matching row gives
the owning user_id.  Moreover a token minted at time T by create_user or by
verify_user resolves to its user at every check time strictly before
T + 24h and to TOKEN_EXPIRED at every check time at or after T + 24h. -/
theorem c3_token_resolution_cases (db : DB) :
    (∀ (now : Nat) (tok : String),
      db.tokens.find? (fun t => t.value == tok) = none →
      get_user_id_from_token db now tok = .invalidToken) ∧
    (∀ (now : Nat) (tok : String) (t : TokenRow),
      db.tokens.find? (fun t0 => t0.value == tok) = some t →
      db.users.any (fun u => u.user_id == t.user_id) = true →
      (t.expiration ≤ now → get_user_id_from_token db now tok = .tokenExpired) ∧
      (now < t.expiration → get_user_id_from_token db now tok = .user t.user_id)) ∧
    (∀ (now salt : Nat) (tv un pw em : String) (uid : UserId) (db' : DB),
      create_user db now salt tv un pw em = (.ok uid tv, db') →
      ∀ t2 : Nat,
        (t2 < next_day_timestamp_millis now →
          get_user_id_from_token db' t2 tv = .user uid) ∧
        (next_day_timestamp_millis now ≤ t2 →
          get_user_id_from_token db' t2 tv = .tokenExpired)) ∧
    (∀ (now : Nat) (tv un pw : String) (uid : UserId) (db' : DB),
      verify_user db now tv un pw = (.ok uid tv, db') →
      ∀ t2 : Nat,
        (t2 < next_day_timestamp_millis now →
          get_user_id_from_token db' t2 tv = .user uid) ∧
        (next_day_timestamp_millis now ≤ t2 →
          get_user_id_from_token db' t2 tv = .tokenExpired)) := by
  refine ⟨?_, ?_, ?_, ?_⟩
  · intro now tok hnone
    unfold get_user_id_from_token
    rw [hnone]
  · intro now tok t hfind hjoin
    unfold get_user_id_from_token
    rw [hfind]
    simp only [hjoin, if_true]
    constructor
    · intro hle
      rw [if_neg (Nat.not_lt.mpr hle)]
    · intro hlt
      rw [if_pos hlt]
  · intro now salt tv un pw em uid db' heq t2
    unfold create_user at heq
    split at heq
    · simp at heq
    · dsimp only at heq
      split at heq
      · simp at heq
      · rename_i hnotok
        rw [Prod.mk.injEq, CreateUserResult.ok.injEq] at heq
        obtain ⟨⟨huid, -⟩, hdb'⟩ := heq
        subst hdb'
        have hvals : ∀ t0 ∈ db.tokens, ¬(t0.value == tv) = true := by
          intro t0 ht0 hv
          exact hnotok (List.any_eq_true.mpr ⟨t0, ht0, by simp [hv]⟩)
        have hfind : (db.tokens ++
            [(⟨db.nextUserId, tv, next_day_timestamp_millis now⟩ : TokenRow)]).find?
              (fun t => t.value == tv) =
            some ⟨db.nextUserId, tv, next_day_timestamp_millis now⟩ := by
          rw [List.find?_append, List.find?_eq_none.mpr hvals]
          simp
        unfold get_user_id_from_token
        rw [hfind]
        have hjoin : ((db.users ++
            [(⟨db.nextUserId, un, hashpw pw salt, em⟩ : UserRow)]).any
            (fun u => u.user_id == db.nextUserId)) = true := by
          rw [List.any_append]
          simp
        simp only [hjoin, if_true]
        subst huid
        constructor
        · intro hlt
          rw [if_pos hlt]
        · intro hle
          rw [if_neg (Nat.not_lt.mpr hle)]
  · intro now tv un pw uid db' heq t2
    unfold verify_user at heq
    split at heq
    · simp at heq
    · rename_i user hfindu
      split at heq
      · rw [Prod.mk.injEq, VerifyUserResult.ok.injEq] at heq
        obtain ⟨⟨huid, -⟩, hdb'⟩ := heq
        subst hdb'
        have hvals : ∀ t0 ∈ db.tokens.filter
            (fun t => !(t.user_id == user.user_id || t.value == tv)),
            ¬(t0.value == tv) = true := by
          intro t0 ht0
          have hp := (List.mem_filter.mp ht0).2
          simp only [Bool.not_eq_true', Bool.or_eq_false_iff, beq_eq_false_iff_ne] at hp
          simp [hp.2]
        have hfind : ((db.tokens.filter
            (fun t => !(t.user_id == user.user_id || t.value == tv))) ++
            [(⟨user.user_id, tv, next_day_timestamp_millis now⟩ : TokenRow)]).find?
              (fun t => t.value == tv) =
            some ⟨user.user_id, tv, next_day_timestamp_millis now⟩ := by
          rw [List.find?_append, List.find?_eq_none.mpr hvals]
          simp
        unfold get_user_id_from_token
        rw [hfind]
        have hjoin : (db.users.any (fun u => u.user_id == user.user_id)) = true :=
          List.any_eq_true.mpr ⟨user, List.mem_of_find?_eq_some hfindu, by simp⟩
        simp only [hjoin, if_true]
        subst huid
        constructor
        · intro hlt
          rw [if_pos hlt]
        · intro hle
          rw [if_neg (Nat.not_lt.mpr hle)]
      · simp at heq

theorem c3_token_resolution_cases_witness :
    get_user_id_from_token initialDB 0 "ghost" = .invalidToken ∧
    get_user_id_from_token dbA 86400999 "tokA" = .user 1 ∧
    get_user_id_from_token dbA 86401000 "tokA" = .tokenExpired := by
  refine ⟨(c3_token_resolution_cases initialDB).1 0 "ghost" (by decide), ?_, ?_⟩
  · exact ((c3_token_resolution_cases initialDB).2.2.1 1000 0 "tokA" "alice" "pw"
      "a@a" 1 dbA (by decide) 86400999).1 (by decide)
  · exact ((c3_token_resolution_cases initialDB).2.2.1 1000 0 "tokA" "alice" "pw"
      "a@a" 1 dbA (by decide) 86401000).2 (by decide)

theorem resolve_set_notes (db : DB) (ns : List NoteRow) (now : Nat) (tok : String) :
    get_user_id_from_token { db with notes := ns } now tok =
    get_user_id_from_token db now tok := rfl

theorem resolve_set_notes_next (db : DB) (ns : List NoteRow) (k : Nat)
    (now : Nat) (tok : String) :
    get_user_id_from_token { db with notes := ns, nextNoteId := k } now tok =
    get_user_id_from_token db now tok := rfl

/-- C9: when delete_note answers OK, the state it returns no longer yields
the note - get_note on the same id and token answers NOTE_NOT_FOUND, and a
second delete_note answers NOTE_NOT_FOUND as well, leaving the state put. -/
theorem c9_deletion_finality (db db' : DB) (now : Nat) (nid : NoteId) (tok : String)
    (h : delete_note db now nid tok = (.ok, db')) :
    get_note db' now nid tok = .noteNotFound ∧
    delete_note db' now nid tok = (.noteNotFound, db') := by
  unfold delete_note at h
  split at h
  · simp at h
  · simp at h
  · rename_i uid hres
    unfold _delete_note at h
    split at h
    · rw [Prod.mk.injEq] at h
      obtain ⟨-, hdb'⟩ := h
      subst hdb'
      have hres' : get_user_id_from_token
          { db with notes := db.notes.filter (fun n => !(n.note_id == nid && n.user_id == uid)) }
          now tok = .user uid := by
        rw [resolve_set_notes]
        exact hres
      have hgone : ∀ m ∈ db.notes.filter (fun n => !(n.note_id == nid && n.user_id == uid)),
          ¬(m.note_id == nid && m.user_id == uid) = true := by
        intro m hm
        have hp := (List.mem_filter.mp hm).2
        simp only [Bool.not_eq_true'] at hp
        simp [hp]
      constructor
      · simp only [get_note, hres']
        simp only [_get_note, List.find?_eq_none.mpr hgone]
      · simp only [delete_note, hres']
        simp only [_delete_note]
        rw [if_neg]
        rw [List.any_eq_true]
        rintro ⟨m, hm, hpm⟩
        exact hgone m hm hpm
    · simp at h

theorem c9_deletion_finality_witness :
    get_note dbNoteDel 10 1 "t9" = .noteNotFound ∧
    delete_note dbNoteDel 10 1 "t9" = (.noteNotFound, dbNoteDel) :=
  c9_deletion_finality dbNote dbNoteDel 10 1 "t9" (by decide)

/-- C10: when the token resolves to a user but the store raises while the
notes of that user are fetched, get_all_notes returns the empty list - not
UNKNOWN_ERROR - which is exactly what it returns, without any fault, on the
state where that user owns no notes: at the public interface the fault is
indistinguishable from the user having no notes. -/
theorem c10_store_fault_yields_empty_list (db : DB) (now : Nat) (tok q : String)
    (uid : UserId) (hres : get_user_id_from_token db now tok = .user uid) :
    get_all_notes_onStoreFault db now tok q = .notes [] ∧
    get_all_notes_onStoreFault db now tok q ≠ .unknownError ∧
    get_all_notes_onStoreFault db now tok q =
      get_all_notes { db with notes := db.notes.filter (fun n => !(n.user_id == uid)) }
        now tok q := by
  have hfault : get_all_notes_onStoreFault db now tok q = .notes [] := by
    simp only [get_all_notes_onStoreFault, hres]
  refine ⟨hfault, by rw [hfault]; exact fun hc => ListNotesResult.noConfusion hc, ?_⟩
  have hres' : get_user_id_from_token
      { db with notes := db.notes.filter (fun n => !(n.user_id == uid)) } now tok =
      .user uid := by
    rw [resolve_set_notes]
    exact hres
  rw [hfault]
  simp only [get_all_notes, hres', _get_all_notes]
  have hnone : ∀ p : NoteRow → Bool,
      (db.notes.filter (fun n => !(n.user_id == uid))).filter
        (fun n => n.user_id == uid && p n) = [] := by
    intro p
    rw [List.filter_eq_nil_iff]
    intro m hm
    have hp := (List.mem_filter.mp hm).2
    simp only [Bool.not_eq_true'] at hp
    simp [hp]
  have hnone' : (db.notes.filter (fun n => !(n.user_id == uid))).filter
      (fun n => n.user_id == uid) = [] := by
    rw [List.filter_eq_nil_iff]
    intro m hm
    have hp := (List.mem_filter.mp hm).2
    simp only [Bool.not_eq_true'] at hp
    simp [hp]
  split
  · rw [hnone']
    rfl
  · rw [hnone (fun n => titleLike n.title (pyStrip q))]
    rfl

theorem c10_store_fault_yields_empty_list_witness :
    get_all_notes_onStoreFault dbNote 10 "t9" "x" = .notes [] ∧
    get_all_notes_onStoreFault dbNote 10 "t9" "x" ≠ .unknownError ∧
    get_all_notes_onStoreFault dbNote 10 "t9" "x" =
      get_all_notes { dbNote with notes := dbNote.notes.filter (fun n => !(n.user_id == 1)) }
        10 "t9" "x" :=
  c10_store_fault_yields_empty_list dbNote 10 "t9" "x" 1 (by decide)

/-- C2: a note owned by user A is invisible to any other resolved user B -
get_note, update_note and delete_note called with a token of B on the id of
the note answer NOTE_NOT_FOUND, and the state (in particular the note) is
left exactly as it was. -/
theorem c2_ownership_isolation (db : DB) (now : Nat) (nid : NoteId)
    (tok ti co : String) (n : NoteRow) (uidB : UserId)
    (hnodup : db.notes.Pairwise (fun a b => a.note_id ≠ b.note_id))
    (hmem : n ∈ db.notes) (hid : n.note_id = nid)
    (hres : get_user_id_from_token db now tok = .user uidB)
    (hne : uidB ≠ n.user_id) :
    get_note db now nid tok = .noteNotFound ∧
    update_note db now nid tok ti co = (.noteNotFound, db) ∧
    delete_note db now nid tok = (.noteNotFound, db) := by
  have hnomatch : ∀ m ∈ db.notes, ¬(m.note_id == nid && m.user_id == uidB) = true := by
    intro m hm hmatch
    simp only [Bool.and_eq_true, beq_iff_eq] at hmatch
    by_cases hmn : m = n
    · subst hmn
      exact hne hmatch.2.symm
    · have := hnodup.forall (fun a b hab => Ne.symm hab) hm hmem hmn
      exact this (hmatch.1.trans hid.symm)
  have hany : (db.notes.any (fun m => m.note_id == nid && m.user_id == uidB)) = false :=
    List.any_eq_false.mpr hnomatch
  refine ⟨?_, ?_, ?_⟩
  · simp only [get_note, hres, _get_note, List.find?_eq_none.mpr hnomatch]
  · simp only [update_note, hres, _update_note, hany, Bool.false_eq_true, if_false]
  · simp only [delete_note, hres, _delete_note, hany, Bool.false_eq_true, if_false]

theorem c2_ownership_isolation_witness :
    get_note dbTwo 10 1 "tb" = .noteNotFound ∧
    update_note dbTwo 10 1 "tb" "evil" "evil" = (.noteNotFound, dbTwo) ∧
    delete_note dbTwo 10 1 "tb" = (.noteNotFound, dbTwo) :=
  c2_ownership_isolation dbTwo 10 1 "tb" "evil" "evil" ⟨1, 1, "N", "c", 5, 5⟩ 2
    (by decide) (by decide) rfl (by decide) (by decide)

/-- C1: in every reachable state each user owns at most one token row, and
when a verify_user call succeeds for a user, every token row that the user
owned before (any value other than the fresh one) no longer resolves - it
matches no row at all, so resolution answers INVALID_TOKEN at every check
time - while the freshly issued token is the one that resolves to the user.
-/
theorem c1_single_live_session (db : DB) (hreach : Reachable db) :
    (∀ uid : UserId, (db.tokens.filter (fun t => t.user_id == uid)).length ≤ 1) ∧
    (∀ (now : Nat) (tv un pw : String) (uid : UserId) (db' : DB),
      verify_user db now tv un pw = (.ok uid tv, db') →
      (∀ told ∈ db.tokens, told.user_id = uid → told.value ≠ tv →
        ∀ t2 : Nat, get_user_id_from_token db' t2 told.value = .invalidToken) ∧
      (∀ t2 : Nat, t2 < next_day_timestamp_millis now →
        get_user_id_from_token db' t2 tv = .user uid)) := by
  obtain ⟨hwuid, hwval⟩ := tokensWF_of_reachable db hreach
  constructor
  · intro uid
    exact length_filter_le_one_of_pairwise (fun t => t.user_id) db.tokens hwuid uid
  · intro now tv un pw uid db' heq
    unfold verify_user at heq
    split at heq
    · simp at heq
    · rename_i user hfindu
      split at heq
      · rw [Prod.mk.injEq, VerifyUserResult.ok.injEq] at heq
        obtain ⟨⟨huid, -⟩, hdb'⟩ := heq
        subst hdb'
        constructor
        · intro told htold hua hvne t2
          have hvals : ∀ t0 ∈ db.tokens.filter
              (fun t => !(t.user_id == user.user_id || t.value == tv)),
              ¬(t0.value == told.value) = true := by
            intro t0 ht0 hv
            rw [beq_iff_eq] at hv
            obtain ⟨ht0mem, hpred⟩ := List.mem_filter.mp ht0
            simp only [Bool.not_eq_true', Bool.or_eq_false_iff, beq_eq_false_iff_ne] at hpred
            by_cases h00 : t0 = told
            · subst h00
              exact hpred.1 (hua.trans huid.symm)
            · exact (hwval.forall (fun a b hab => Ne.symm hab) ht0mem htold h00) hv
          have hvne' : (tv == told.value) = false :=
            beq_eq_false_iff_ne.mpr (fun hc => hvne hc.symm)
          have hfind : ((db.tokens.filter
              (fun t => !(t.user_id == user.user_id || t.value == tv))) ++
              [(⟨user.user_id, tv, next_day_timestamp_millis now⟩ : TokenRow)]).find?
                (fun t => t.value == told.value) = none := by
            rw [List.find?_append, List.find?_eq_none.mpr hvals]
            simp [List.find?_cons, List.find?_nil, hvne']
          unfold get_user_id_from_token
          rw [hfind]
        · intro t2 hlt
          have hvals : ∀ t0 ∈ db.tokens.filter
              (fun t => !(t.user_id == user.user_id || t.value == tv)),
              ¬(t0.value == tv) = true := by
            intro t0 ht0
            have hp := (List.mem_filter.mp ht0).2
            simp only [Bool.not_eq_true', Bool.or_eq_false_iff, beq_eq_false_iff_ne] at hp
            simp [hp.2]
          have hfind : ((db.tokens.filter
              (fun t => !(t.user_id == user.user_id || t.value == tv))) ++
              [(⟨user.user_id, tv, next_day_timestamp_millis now⟩ : TokenRow)]).find?
                (fun t => t.value == tv) =
              some ⟨user.user_id, tv, next_day_timestamp_millis now⟩ := by
            rw [List.find?_append, List.find?_eq_none.mpr hvals]
            simp
          unfold get_user_id_from_token
          rw [hfind]
          have hjoin : (db.users.any (fun u => u.user_id == user.user_id)) = true :=
            List.any_eq_true.mpr ⟨user, List.mem_of_find?_eq_some hfindu, by simp⟩
          simp only [hjoin, if_true]
          rw [if_pos hlt, huid]
      · simp at heq

theorem c1_single_live_session_witness :
    ((dbA.tokens.filter (fun t => t.user_id == 1)).length ≤ 1) ∧
    get_user_id_from_token dbB 2500 "tokA" = .invalidToken ∧
    get_user_id_from_token dbB 2500 "tokB" = .user 1 := by
  have hreach : Reachable dbA :=
    Reachable.step_create_user initialDB 1000 0 "tokA" "alice" "pw" "a@a" Reachable.init
  have h := c1_single_live_session dbA hreach
  have h2 := h.2 2000 "tokB" "alice" "pw" 1 dbB (by decide)
  exact ⟨h.1 1,
    h2.1 ⟨1, "tokA", 86401000⟩ (by decide) rfl (by decide) 2500,
    h2.2 2500 (by decide)⟩

/-- C4 counterexample: with the clock reading unchanged between the two calls
(two statements executing within the same CURRENT_TIMESTAMP tick), the
update succeeds and the new title and content are visible, but updated_at
equals the value observed before the update instead of being strictly
greater. -/
theorem c4_updated_at_not_strict_counterexample :
    create_note dbFresh 5000 "t4" "T" "C" = (.ok 1, dbFresh1) ∧
    get_note dbFresh1 5000 1 "t4" = .note ⟨1, 1, "T", "C", 5000, 5000⟩ ∧
    update_note dbFresh1 5000 1 "t4" "T2" "C2" = (.ok, dbFresh2) ∧
    get_note dbFresh2 5000 1 "t4" = .note ⟨1, 1, "T2", "C2", 5000, 5000⟩ ∧
    ¬ ((5000 : Nat) < 5000) := by decide

/-- C4 (amended): for a valid token, create_note followed by get_note returns
the note with the given title and content and with created_at equal to
updated_at; a subsequent successful update_note followed by get_note shows
the new title and content with created_at untouched and updated_at refreshed
to the update clock reading - strictly greater than the value observed
before the update provided the clock reading of the update is strictly
after that of the creation (the timestamps are drawn from the ambient
clock, so two calls at the same reading yield equal values). -/
theorem c4_create_update_roundtrip (db : DB) (t1 t2 : Nat)
    (tok ti1 co1 ti2 co2 : String) (uid : UserId)
    (hbound : ∀ n ∈ db.notes, n.note_id < db.nextNoteId)
    (hres1 : get_user_id_from_token db t1 tok = .user uid)
    (hres2 : get_user_id_from_token db t2 tok = .user uid)
    (ht : t1 < t2) :
    ∃ db1 db2 : DB,
      create_note db t1 tok ti1 co1 = (.ok db.nextNoteId, db1) ∧
      get_note db1 t1 db.nextNoteId tok =
        .note ⟨db.nextNoteId, uid, ti1, co1, t1, t1⟩ ∧
      update_note db1 t2 db.nextNoteId tok ti2 co2 = (.ok, db2) ∧
      get_note db2 t2 db.nextNoteId tok =
        .note ⟨db.nextNoteId, uid, ti2, co2, t1, t2⟩ ∧
      t1 < t2 := by
  have hleft : ∀ m ∈ db.notes,
      ¬((m.note_id == db.nextNoteId && m.user_id == uid) = true) := by
    intro m hm hc
    simp only [Bool.and_eq_true, beq_iff_eq] at hc
    exact absurd hc.1 (Nat.ne_of_lt (hbound m hm))
  refine ⟨{ db with
      notes := db.notes ++ [⟨db.nextNoteId, uid, ti1, co1, t1, t1⟩],
      nextNoteId := db.nextNoteId + 1 },
    { db with
      notes := List.map (fun n : NoteRow =>
          if n.note_id == db.nextNoteId && n.user_id == uid then
            { n with title := ti2, content := co2, updated_at := t2 } else n)
        (db.notes ++ [⟨db.nextNoteId, uid, ti1, co1, t1, t1⟩]),
      nextNoteId := db.nextNoteId + 1 }, ?_, ?_, ?_, ?_, ht⟩
  · simp only [create_note, hres1, _create_note]
  · rw [get_note, resolve_set_notes_next, hres1]
    have hfind1 : (db.notes ++
        [(⟨db.nextNoteId, uid, ti1, co1, t1, t1⟩ : NoteRow)]).find?
          (fun n => n.note_id == db.nextNoteId && n.user_id == uid) =
        some ⟨db.nextNoteId, uid, ti1, co1, t1, t1⟩ := by
      rw [List.find?_append, List.find?_eq_none.mpr hleft]
      simp
    simp only [_get_note, hfind1]
  · rw [update_note, resolve_set_notes_next, hres2]
    have hany : ((db.notes ++
        [(⟨db.nextNoteId, uid, ti1, co1, t1, t1⟩ : NoteRow)]).any
          (fun n => n.note_id == db.nextNoteId && n.user_id == uid)) = true := by
      rw [List.any_eq_true]
      exact ⟨⟨db.nextNoteId, uid, ti1, co1, t1, t1⟩, by simp, by simp⟩
    simp only [_update_note, hany, if_true]
  · rw [get_note, resolve_set_notes_next, hres2]
    have hleft2 : ∀ m ∈ List.map (fun n : NoteRow =>
        if n.note_id == db.nextNoteId && n.user_id == uid then
          { n with title := ti2, content := co2, updated_at := t2 } else n) db.notes,
        ¬((m.note_id == db.nextNoteId && m.user_id == uid) = true) := by
      intro m hm
      obtain ⟨n, hn, rfl⟩ := List.mem_map.mp hm
      rw [if_neg (hleft n hn)]
      exact hleft n hn
    have hfind2 : (List.map (fun n : NoteRow =>
        if n.note_id == db.nextNoteId && n.user_id == uid then
          { n with title := ti2, content := co2, updated_at := t2 } else n)
        (db.notes ++ [(⟨db.nextNoteId, uid, ti1, co1, t1, t1⟩ : NoteRow)])).find?
          (fun n => n.note_id == db.nextNoteId && n.user_id == uid) =
        some ⟨db.nextNoteId, uid, ti2, co2, t1, t2⟩ := by
      rw [List.map_append, List.find?_append, List.find?_eq_none.mpr hleft2]
      simp
    simp only [_get_note, hfind2]

theorem c4_create_update_roundtrip_witness :
    ∃ db1 db2 : DB,
      create_note dbFresh 5000 "t4" "T" "C" = (.ok 1, db1) ∧
      get_note db1 5000 1 "t4" = .note ⟨1, 1, "T", "C", 5000, 5000⟩ ∧
      update_note db1 6000 1 "t4" "T2" "C2" = (.ok, db2) ∧
      get_note db2 6000 1 "t4" = .note ⟨1, 1, "T2", "C2", 5000, 6000⟩ ∧
      (5000 : Nat) < 6000 :=
  c4_create_update_roundtrip dbFresh 5000 6000 "t4" "T" "C" "T2" "C2" 1
    (by decide) (by decide) (by decide) (by decide)

/-- C6 counterexample: the LIKE matching of the search is
ASCII-case-insensitive (the SQLite default), so with a single note titled
ABC the query abc returns that note even though its title does not contain
the query as a case-sensitive substring. -/
theorem c6_search_case_sensitivity_counterexample :
    get_all_notes dbCase 10 "t6" "abc" = .notes [⟨1, 1, "ABC", "c", 5, 5⟩] ∧
    containsSeq "abc".toList "ABC".toList = false := by decide

/-- C6 (amended): for a valid token, list_notes returns exactly the notes
owned by the resolved user, sorted by updated_at descending; a blank or
whitespace-only query applies no filter; a non-blank trimmed query keeps
exactly the notes whose title matches the SQLite LIKE pattern built from it,
which for a query free of the wildcards is exactly ASCII-case-insensitive
containment of the query in the title. -/
theorem c6_list_notes_search (db : DB) (now : Nat) (tok q : String) (uid : UserId)
    (hres : get_user_id_from_token db now tok = .user uid) :
    ∃ l, get_all_notes db now tok q = .notes l ∧
      l.Pairwise updGE ∧
      ((pyStrip q).isEmpty = true →
        l.Perm (db.notes.filter (fun n => n.user_id == uid))) ∧
      ((pyStrip q).isEmpty = false →
        l.Perm (db.notes.filter
          (fun n => n.user_id == uid && titleLike n.title (pyStrip q))) ∧
        ((∀ c ∈ (pyStrip q).toList, c ≠ '%' ∧ c ≠ '_') →
          ∀ n, n ∈ l ↔ n ∈ db.notes ∧ n.user_id = uid ∧
            containsSeq ((pyStrip q).toList.map Char.toLower)
              (n.title.toList.map Char.toLower) = true)) := by
  refine ⟨_get_all_notes db uid q, ?_, ?_, ?_, ?_⟩
  · simp only [get_all_notes, hres]
  · unfold _get_all_notes
    exact List.sorted_insertionSort updGE _
  · intro hblank
    unfold _get_all_notes
    simp only [hblank, if_true]
    exact List.perm_insertionSort updGE _
  · intro hnonblank
    have hl : _get_all_notes db uid q =
        List.insertionSort updGE (db.notes.filter
          (fun n => n.user_id == uid && titleLike n.title (pyStrip q))) := by
      simp only [_get_all_notes, hnonblank, Bool.false_eq_true, if_false]
    constructor
    · rw [hl]
      exact List.perm_insertionSort updGE _
    · intro hplain n
      rw [hl, (List.perm_insertionSort updGE _).mem_iff, List.mem_filter,
        Bool.and_eq_true, beq_iff_eq,
        titleLike_eq_containsSeq n.title (pyStrip q) hplain]

theorem c6_list_notes_search_witness :
    ∃ l, get_all_notes dbSearch 10 "t6" "Qwerty" = .notes l ∧
      l.Pairwise updGE ∧
      ((pyStrip "Qwerty").isEmpty = true →
        l.Perm (dbSearch.notes.filter (fun n => n.user_id == 1))) ∧
      ((pyStrip "Qwerty").isEmpty = false →
        l.Perm (dbSearch.notes.filter
          (fun n => n.user_id == 1 && titleLike n.title (pyStrip "Qwerty"))) ∧
        ((∀ c ∈ (pyStrip "Qwerty").toList, c ≠ '%' ∧ c ≠ '_') →
          ∀ n, n ∈ l ↔ n ∈ dbSearch.notes ∧ n.user_id = 1 ∧
            containsSeq ((pyStrip "Qwerty").toList.map Char.toLower)
              (n.title.toList.map Char.toLower) = true)) :=
  c6_list_notes_search dbSearch 10 "t6" "Qwerty" 1 (by decide)

/-- C8: the sign_in route is documented (docstring, spec table, tests) to
answer 404 with the domain error on bad credentials, but the comparison at
api.py line 47 reads DatabaseManager.INVALID_PASSWORD, an attribute db.py
never defines (it defines STATUS_INVALID_PASSWORD), so Python raises
AttributeError and the blanket handler answers 500 - on the wrong-password
and unknown-username paths, and on the correct-credentials path as well -
where the documented behaviour answers 404 (resp. 200 with the token). -/
theorem c8_sign_in_bad_credentials_answer_500 :
    (verify_user dbA 2000 "tokZ" "alice" "wrong").1 = .invalidPassword ∧
    (sign_in_route dbA 2000 "tokZ" "alice" "wrong").1 = .error 500 attributeErrorMsg ∧
    (sign_in_route_documented dbA 2000 "tokZ" "alice" "wrong").1 =
      .error 404 "invalid_password" ∧
    (verify_user dbA 2000 "tokZ" "ghost" "pw").1 = .userNotFound ∧
    (sign_in_route dbA 2000 "tokZ" "ghost" "pw").1 = .error 500 attributeErrorMsg ∧
    (sign_in_route_documented dbA 2000 "tokZ" "ghost" "pw").1 =
      .error 404 "user_not_found" ∧
    (verify_user dbA 2000 "tokZ" "alice" "pw").1 = .ok 1 "tokZ" ∧
    (sign_in_route dbA 2000 "tokZ" "alice" "pw").1 = .error 500 attributeErrorMsg ∧
    (sign_in_route_documented dbA 2000 "tokZ" "alice" "pw").1 = .token 200 "tokZ" := by
  decide
